import Mathlib

/-!
Shallow embedding of src/modules/camera_with_pose.py.

The source renders human-pose keypoints on video frames:
  - draw_simplified_pose: markers + a 17-joint skeleton topology;
  - draw_custom_pose: synthesizes neck (index 17) and pelvis (index 18)
    from shoulders (5,6) and hips (11,12), then renders a 19-joint topology;
  - real_time_pose_estimation: the capture-infer-render-display loop with
    a per-person action-label annotation gated on the nose joint.

Python floats are embedded as rationals; the comparisons and the averaging
by 2 used by the source are exact in both. Drawing is embedded with a
record-only backend: an image is the list of drawing operations performed
on it, and each cv2 primitive call appends one operation.
-/

/-- A keypoint [x, y, confidence] as handed to the drawing functions. -/
structure Keypoint where
  x : ℚ
  y : ℚ
  conf : ℚ
deriving DecidableEq, Repr

/-- A person is the ordered list of keypoints (the model contract is 17
entries; the source indexes positions 0-16 directly and would raise
IndexError on a shorter list, so theorems about a whole person carry a
length hypothesis under which every lookup below succeeds). -/
abbrev Person := List Keypoint

/-- Python int() on a float truncates toward zero: floor for nonnegative
values, ceiling for negative ones. Used for every pixel coordinate. -/
def pyInt (q : ℚ) : ℤ :=
  if q < 0 then ⌈q⌉ else ⌊q⌋

/-- An RGB-ish color triple as passed to cv2 (B, G, R). -/
abbrev Color := ℕ × ℕ × ℕ

/-- One recorded drawing operation (record-only backend for cv2 calls). -/
inductive DrawOp where
  | circle (center : ℤ × ℤ) (radius : ℕ) (color : Color)
  | line (p1 : ℤ × ℤ) (p2 : ℤ × ℤ) (color : Color) (width : ℕ)
  | text (label : String) (org : ℤ × ℤ) (color : Color) (thickness : ℕ)
deriving DecidableEq, Repr

/-- A record-only image: the list of operations drawn onto it so far. -/
abbrev Image := List DrawOp

/-- The confidence gate of the source: every visibility test is the strict
comparison conf > confidence_threshold. -/
def visible (conf thr : ℚ) : Bool :=
  conf > thr

/-- The marker step for one keypoint: cv2.circle at (int(x), int(y)) when
the keypoint passes the gate, nothing otherwise. -/
def circleOp (radius : ℕ) (color : Color) (thr : ℚ) (k : Keypoint) : Option DrawOp :=
  if visible k.conf thr then
    some (.circle (pyInt k.x, pyInt k.y) radius color)
  else
    none

/-- The segment step for one topology pair (a, b): cv2.line between the
int-truncated coordinates of keypts[a] and keypts[b] when both pass the
gate. A missing index is the IndexError case of the source; no segment is
drawn for it (theorems about whole persons carry length hypotheses under
which both lookups succeed). -/
def segOp (color : Color) (width : ℕ) (keypts : List Keypoint) (thr : ℚ)
    (p : ℕ × ℕ) : Option DrawOp :=
  match keypts.get? p.1, keypts.get? p.2 with
  | some ka, some kb =>
    if visible ka.conf thr ∧ visible kb.conf thr then
      some (.line (pyInt ka.x, pyInt ka.y) (pyInt kb.x, pyInt kb.y) color width)
    else
      none
  | _, _ => none

/-- The simplified 17-joint topology table of draw_simplified_pose. -/
def skeletonSimplified : List (ℕ × ℕ) :=
  [(5, 7), (7, 9),
   (6, 8), (8, 10),
   (11, 13), (13, 15),
   (12, 14), (14, 16),
   (5, 6),
   (11, 12),
   (5, 11), (6, 12),
   (0, 5), (0, 6)]

/-- The extended 19-joint topology table of draw_custom_pose, using the
synthesized neck (17) and pelvis (18). -/
def skeletonCustom : List (ℕ × ℕ) :=
  [(1, 2),
   (0, 17),
   (5, 7), (7, 9),
   (6, 8), (8, 10),
   (17, 5), (17, 6),
   (18, 11), (18, 12),
   (11, 13), (13, 15),
   (12, 14), (14, 16),
   (17, 18)]

/-- draw_simplified_pose on one person: markers (radius 5, green) for every
gated keypoint, then one segment (blue, width 2) per fully gated pair. -/
def drawSimplifiedPersonOps (person : Person) (thr : ℚ) : List DrawOp :=
  person.filterMap (circleOp 5 (0, 255, 0) thr)
    ++ skeletonSimplified.filterMap (segOp (255, 0, 0) 2 person thr)

/-- draw_simplified_pose: iterates the per-person drawing over all persons,
appending the recorded operations to the image. -/
def draw_simplified_pose (image : Image) (keypoints : List Person)
    (thr : ℚ) : Image :=
  image ++ keypoints.flatMap (fun person => drawSimplifiedPersonOps person thr)

/-- The neck synthesized by draw_custom_pose: the componentwise average of
keypoints 5 and 6 when both pass the gate, [0, 0, 0] otherwise. -/
def neckOf (person : Person) (thr : ℚ) : Keypoint :=
  match person.get? 5, person.get? 6 with
  | some k5, some k6 =>
    if visible k5.conf thr ∧ visible k6.conf thr then
      ⟨(k5.x + k6.x) / 2, (k5.y + k6.y) / 2, (k5.conf + k6.conf) / 2⟩
    else
      ⟨0, 0, 0⟩
  | _, _ => ⟨0, 0, 0⟩

/-- The pelvis synthesized by draw_custom_pose: the componentwise average
of keypoints 11 and 12 when both pass the gate, [0, 0, 0] otherwise. -/
def pelvisOf (person : Person) (thr : ℚ) : Keypoint :=
  match person.get? 11, person.get? 12 with
  | some k11, some k12 =>
    if visible k11.conf thr ∧ visible k12.conf thr then
      ⟨(k11.x + k12.x) / 2, (k11.y + k12.y) / 2, (k11.conf + k12.conf) / 2⟩
    else
      ⟨0, 0, 0⟩
  | _, _ => ⟨0, 0, 0⟩

/-- The augmented keypoint list of draw_custom_pose: person.tolist() makes
a fresh copy, then neck and pelvis are appended to it (indices 17 and 18
for a 17-entry person); the input person is left untouched. -/
def augmentKeypoints (person : Person) (thr : ℚ) : List Keypoint :=
  person ++ [neckOf person thr, pelvisOf person thr]

/-- draw_custom_pose on one person: markers (radius 4, green) for every
gated keypoint of the augmented list, then one segment (magenta, width 2)
per fully gated pair of the extended topology. -/
def drawCustomPersonOps (person : Person) (thr : ℚ) : List DrawOp :=
  let keypts := augmentKeypoints person thr
  keypts.filterMap (circleOp 4 (0, 255, 0) thr)
    ++ skeletonCustom.filterMap (segOp (255, 0, 255) 2 keypts thr)

/-- draw_custom_pose: iterates the per-person drawing over all persons,
appending the recorded operations to the image. -/
def draw_custom_pose (image : Image) (keypoints : List Person)
    (thr : ℚ) : Image :=
  image ++ keypoints.flatMap (fun person => drawCustomPersonOps person thr)

/-- An observable event of the real_time_pose_estimation loop. Info
prints are not recorded; the two error prints are, since the error
claims are about them. -/
inductive Event where
  | reportOpenFailure
  | reportReadFailure
  | draw (op : DrawOp)
  | classifyCall (person : Person)
  | display
  | release
  | destroyWindows
deriving DecidableEq, Repr

/-- The annotation step for one person inside the loop body: classify_pose
is always called; the label text (yellow, thickness 2) is drawn at
(int(nose.x), int(nose.y) - 10) only when the nose (index 0) passes the
gate. An empty person is the IndexError case of person[0]; the theorems
carry the corresponding lookup hypothesis. -/
def annotatePerson (classify : Person → String) (thr : ℚ)
    (person : Person) : List Event :=
  Event.classifyCall person ::
    (match person.get? 0 with
     | some nose =>
       if visible nose.conf thr then
         [Event.draw (.text (classify person) (pyInt nose.x, pyInt nose.y - 10)
            (0, 255, 255) 2)]
       else
         []
     | none => [])

/-- One successful iteration of the loop body after the model call: the
source invokes draw_custom_pose(frame, keypoints) WITHOUT forwarding its
confidence_threshold parameter, so the renderer runs at its default 3/10;
then each person is annotated at the session threshold; then the frame is
displayed. -/
def processFrame (classify : Person → String) (persons : List Person)
    (thr : ℚ) : List Event :=
  (draw_custom_pose [] persons (3 / 10)).map Event.draw
    ++ persons.flatMap (annotatePerson classify thr)
    ++ [Event.display]

/-- Modelled from the spec: the same iteration with the session threshold
"applied uniformly to all visibility checks", i.e. also forwarded to the
renderer. Used only to compare against processFrame. -/
def processFrameUniform (classify : Person → String) (persons : List Person)
    (thr : ℚ) : List Event :=
  (draw_custom_pose [] persons thr).map Event.draw
    ++ persons.flatMap (annotatePerson classify thr)
    ++ [Event.display]

/-- The running loop over a finite iteration schedule: each entry is
(read result, whether waitKey sees q). On read failure the error is
printed and the loop breaks; after a displayed frame the loop breaks if q
was pressed, else continues. An exhausted schedule ends the model run. -/
def runLoop (classify : Person → String) (thr : ℚ) :
    List (Option (List Person) × Bool) → List Event
  | [] => []
  | (none, _) :: _ => [Event.reportReadFailure]
  | (some persons, q) :: rest =>
    processFrame classify persons thr
      ++ (if q then [] else runLoop classify thr rest)

/-- real_time_pose_estimation, abstracted over whether the capture device
opens and over the iteration schedule. Returns the event trace and the
process exit status. If cap.isOpened() is false the source prints the
error and returns from the function: Python then exits with status 0 and
neither cap.release() nor cv2.destroyAllWindows() runs. On loop exit both
cleanup calls run. -/
def real_time_pose_estimation (classify : Person → String) (thr : ℚ)
    (openOk : Bool) (schedule : List (Option (List Person) × Bool)) :
    List Event × ℕ :=
  if openOk then
    (runLoop classify thr schedule ++ [Event.release, Event.destroyWindows], 0)
  else
    ([Event.reportOpenFailure], 0)

/-- Recognizer for classifier-call events, to count invocations. -/
def isClassifyCall : Event → Bool
  | Event.classifyCall _ => true
  | _ => false

/-- Recognizer for render (drawing) events. -/
def isDrawEvent : Event → Bool
  | Event.draw _ => true
  | _ => false

/-- A concrete 17-joint person used to instantiate theorems: nose and eyes
confident, ears weak, shoulders at (100,100)/(200,100) and hips at
(100,300)/(200,300) with confidence 9/10. -/
def testPerson : Person :=
  [⟨50, 40, 9/10⟩,
   ⟨45, 35, 8/10⟩, ⟨55, 35, 8/10⟩,
   ⟨40, 38, 1/10⟩, ⟨60, 38, 1/10⟩,
   ⟨100, 100, 9/10⟩, ⟨200, 100, 9/10⟩,
   ⟨90, 150, 7/10⟩, ⟨210, 150, 7/10⟩,
   ⟨85, 200, 6/10⟩, ⟨215, 200, 6/10⟩,
   ⟨100, 300, 9/10⟩, ⟨200, 300, 9/10⟩,
   ⟨100, 400, 8/10⟩, ⟨200, 400, 8/10⟩,
   ⟨100, 500, 8/10⟩, ⟨200, 500, 8/10⟩]

/-- A concrete 17-joint person whose keypoints are all [0, 0, 0]. -/
def zeroPerson : Person :=
  [⟨0, 0, 0⟩, ⟨0, 0, 0⟩, ⟨0, 0, 0⟩, ⟨0, 0, 0⟩, ⟨0, 0, 0⟩, ⟨0, 0, 0⟩,
   ⟨0, 0, 0⟩, ⟨0, 0, 0⟩, ⟨0, 0, 0⟩, ⟨0, 0, 0⟩, ⟨0, 0, 0⟩, ⟨0, 0, 0⟩,
   ⟨0, 0, 0⟩, ⟨0, 0, 0⟩, ⟨0, 0, 0⟩, ⟨0, 0, 0⟩, ⟨0, 0, 0⟩]

/-- A concrete one-joint-per-slot person whose keypoints all sit at (1, 1)
with confidence 2/5: above the renderer default threshold 3/10, below 1/2. -/
def midConfPerson : Person :=
  [⟨1, 1, 2/5⟩, ⟨1, 1, 2/5⟩, ⟨1, 1, 2/5⟩, ⟨1, 1, 2/5⟩, ⟨1, 1, 2/5⟩,
   ⟨1, 1, 2/5⟩, ⟨1, 1, 2/5⟩, ⟨1, 1, 2/5⟩, ⟨1, 1, 2/5⟩, ⟨1, 1, 2/5⟩,
   ⟨1, 1, 2/5⟩, ⟨1, 1, 2/5⟩, ⟨1, 1, 2/5⟩, ⟨1, 1, 2/5⟩, ⟨1, 1, 2/5⟩,
   ⟨1, 1, 2/5⟩, ⟨1, 1, 2/5⟩]

/-- C3: the Confidence Gate is strict. A joint is visible exactly when its
confidence strictly exceeds the threshold; confidence equal to the
threshold is not visible; a marker is emitted for a keypoint exactly when
it is visible; and a segment between two keypoints is emitted exactly when
both are visible. -/
theorem confidence_gate_strict :
    (∀ conf thr : ℚ, visible conf thr = true ↔ conf > thr)
    ∧ (∀ thr : ℚ, visible thr thr = false)
    ∧ (∀ (r : ℕ) (col : Color) (thr : ℚ) (k : Keypoint),
        (circleOp r col thr k).isSome = visible k.conf thr)
    ∧ (∀ (col : Color) (w : ℕ) (thr : ℚ) (ka kb : Keypoint),
        (segOp col w [ka, kb] thr (0, 1)).isSome =
          (visible ka.conf thr && visible kb.conf thr)) := by
  refine ⟨?_, ?_, ?_, ?_⟩
  · intro conf thr
    simp [visible]
  · intro thr
    simp [visible]
  · intro r col thr k
    cases h : visible k.conf thr <;> simp [circleOp, h]
  · intro col w thr ka kb
    cases ha : visible ka.conf thr <;> cases hb : visible kb.conf thr <;>
      simp [segOp, ha, hb]

/-- C9: the joint synthesizer is pure. The augmented array starts with the
input person unchanged, its two appended entries are exactly the neck and
the pelvis, and it is two entries longer than the input. -/
theorem synthesizer_no_mutation :
    ∀ (person : Person) (thr : ℚ),
      (augmentKeypoints person thr).take person.length = person
      ∧ (augmentKeypoints person thr).drop person.length =
          [neckOf person thr, pelvisOf person thr]
      ∧ (augmentKeypoints person thr).length = person.length + 2 := by
  intro person thr
  refine ⟨?_, ?_, ?_⟩
  · simpa only [augmentKeypoints] using List.take_left _ _
  · simpa only [augmentKeypoints] using List.drop_left _ _
  · simp [augmentKeypoints]

/-- C10: with an empty persons list, both renderer entry points record no
drawing operation at all: the image is returned unchanged. -/
theorem empty_persons_frame_unchanged :
    ∀ (image : Image) (thr : ℚ),
      draw_simplified_pose image [] thr = image
      ∧ draw_custom_pose image [] thr = image := by
  intro image thr
  exact ⟨by simp [draw_simplified_pose], by simp [draw_custom_pose]⟩

/-- C1: for a 17-joint person, the augmented array has length 19, its
entry at index 17 is the componentwise average of keypoints 5 and 6 when
both beat the threshold and [0,0,0] otherwise, and its entry at index 18
is formed the same way from keypoints 11 and 12. -/
theorem neck_pelvis_synthesis
    (person : Person) (thr : ℚ) (hlen : person.length = 17)
    (k5 k6 k11 k12 : Keypoint)
    (h5 : person.get? 5 = some k5) (h6 : person.get? 6 = some k6)
    (h11 : person.get? 11 = some k11) (h12 : person.get? 12 = some k12) :
    (augmentKeypoints person thr).length = 19
    ∧ (augmentKeypoints person thr).get? 17 =
        some (if k5.conf > thr ∧ k6.conf > thr then
                ⟨(k5.x + k6.x) / 2, (k5.y + k6.y) / 2, (k5.conf + k6.conf) / 2⟩
              else ⟨0, 0, 0⟩)
    ∧ (augmentKeypoints person thr).get? 18 =
        some (if k11.conf > thr ∧ k12.conf > thr then
                ⟨(k11.x + k12.x) / 2, (k11.y + k12.y) / 2,
                 (k11.conf + k12.conf) / 2⟩
              else ⟨0, 0, 0⟩) := by
  refine ⟨by simp [augmentKeypoints, hlen], ?_, ?_⟩
  · have h17 : (augmentKeypoints person thr).get? 17 =
        some (neckOf person thr) := by
      unfold augmentKeypoints
      rw [List.get?_append_right (by omega)]
      simp [hlen]
    rw [h17]
    simp only [neckOf, h5, h6, visible]
    by_cases hc : k5.conf > thr ∧ k6.conf > thr
    · rw [if_pos (by simpa using hc), if_pos hc]
    · rw [if_neg (by simpa using hc), if_neg hc]
  · have h18 : (augmentKeypoints person thr).get? 18 =
        some (pelvisOf person thr) := by
      unfold augmentKeypoints
      rw [List.get?_append_right (by omega)]
      simp [hlen]
    rw [h18]
    simp only [pelvisOf, h11, h12, visible]
    by_cases hc : k11.conf > thr ∧ k12.conf > thr
    · rw [if_pos (by simpa using hc), if_pos hc]
    · rw [if_neg (by simpa using hc), if_neg hc]

/-- Witness for C1 on the concrete test person at the default threshold:
neck (150, 100, 9/10) at index 17 and pelvis (150, 300, 9/10) at 18. -/
theorem neck_pelvis_synthesis_witness :
    (augmentKeypoints testPerson (3/10)).length = 19
    ∧ (augmentKeypoints testPerson (3/10)).get? 17 = some ⟨150, 100, 9/10⟩
    ∧ (augmentKeypoints testPerson (3/10)).get? 18 = some ⟨150, 300, 9/10⟩ := by
  have h := neck_pelvis_synthesis testPerson (3/10) (by norm_num [testPerson])
    ⟨100, 100, 9/10⟩ ⟨200, 100, 9/10⟩ ⟨100, 300, 9/10⟩ ⟨200, 300, 9/10⟩
    rfl rfl rfl rfl
  refine ⟨h.1, ?_, ?_⟩
  · rw [h.2.1, if_pos (by norm_num)]
    norm_num
  · rw [h.2.2, if_pos (by norm_num)]
    norm_num

/-- The per-pair segment action emits a segment exactly when both endpoint
indices resolve to a keypoint and both keypoints beat the threshold. -/
theorem segOp_isSome_iff (col : Color) (w : ℕ) (keypts : List Keypoint)
    (thr : ℚ) (a b : ℕ) :
    (segOp col w keypts thr (a, b)).isSome = true ↔
      ((∃ ka, keypts.get? a = some ka ∧ ka.conf > thr)
       ∧ (∃ kb, keypts.get? b = some kb ∧ kb.conf > thr)) := by
  unfold segOp
  cases ha : keypts.get? a <;> cases hb : keypts.get? b <;>
    simp only [ha, hb] <;> simp [visible]

/-- C2: for every person, threshold and index pair, a segment is emitted
by the extended renderer (over the augmented array) and by the simplified
renderer (over the raw array) exactly when both endpoint joints exist in
that array and both have confidence strictly above the threshold; in
particular no segment is emitted when either endpoint fails the gate. -/
theorem segment_drawn_iff_both_gated :
    ∀ (person : Person) (thr : ℚ) (a b : ℕ),
      ((segOp (255, 0, 255) 2 (augmentKeypoints person thr) thr (a, b)).isSome
          = true ↔
        ((∃ ka, (augmentKeypoints person thr).get? a = some ka ∧ ka.conf > thr)
         ∧ (∃ kb, (augmentKeypoints person thr).get? b = some kb
              ∧ kb.conf > thr)))
      ∧ ((segOp (255, 0, 0) 2 person thr (a, b)).isSome = true ↔
        ((∃ ka, person.get? a = some ka ∧ ka.conf > thr)
         ∧ (∃ kb, person.get? b = some kb ∧ kb.conf > thr))) := by
  intro person thr a b
  exact ⟨segOp_isSome_iff _ _ _ _ _ _, segOp_isSome_iff _ _ _ _ _ _⟩

/-- C5 counterexample: at the negative threshold -1 the synthesized neck
of the all-zero person equals [0, 0, 0], yet confidence 0 passes the gate
there, the joint is drawn as a marker at (0, 0), and the neck-pelvis
segment is emitted. -/
theorem invalid_joint_drawn_counterexample :
    neckOf zeroPerson (-1) = ⟨0, 0, 0⟩
    ∧ visible 0 (-1) = true
    ∧ circleOp 4 (0, 255, 0) (-1) (neckOf zeroPerson (-1)) =
        some (.circle (0, 0) 4 (0, 255, 0))
    ∧ (segOp (255, 0, 255) 2 (augmentKeypoints zeroPerson (-1)) (-1)
        (17, 18)).isSome = true := by
  have hneck : neckOf zeroPerson (-1) = ⟨0, 0, 0⟩ := by
    norm_num [neckOf, zeroPerson, visible, List.get?]
  refine ⟨hneck, by norm_num [visible], ?_, ?_⟩
  · rw [hneck]
    norm_num [circleOp, visible, pyInt]
  · norm_num [segOp, augmentKeypoints, zeroPerson, neckOf, pelvisOf,
      visible, List.get?]

/-- C5 amended (the claim holds for every nonnegative threshold, not for
every threshold): with 0 ≤ threshold, confidence 0 fails the strict gate,
so an invalid [0, 0, 0] joint produces no marker and any segment with it
as either endpoint is suppressed. -/
theorem invalid_joint_never_drawn (thr : ℚ) (hthr : 0 ≤ thr) :
    visible 0 thr = false
    ∧ (∀ (r : ℕ) (col : Color), circleOp r col thr ⟨0, 0, 0⟩ = none)
    ∧ (∀ (col : Color) (w a b : ℕ) (keypts : List Keypoint),
        keypts.get? a = some ⟨0, 0, 0⟩ →
          segOp col w keypts thr (a, b) = none
          ∧ segOp col w keypts thr (b, a) = none) := by
  have hv : visible 0 thr = false := by
    simp only [visible, decide_eq_false_iff_not, not_lt]
    exact hthr
  refine ⟨hv, ?_, ?_⟩
  · intro r col
    simp [circleOp, hv]
  · intro col w a b keypts h
    rw [List.get?_eq_getElem?] at h
    constructor
    · cases hb : keypts[b]? <;> simp [segOp, h, hb, hv]
    · cases hb : keypts[b]? <;> simp [segOp, h, hb, hv]

/-- Witness for C5 amended at the default threshold 3/10: the invalid
joint is gated off, yields no marker, and the neck-to-nose segment of the
all-zero person is suppressed. -/
theorem invalid_joint_never_drawn_witness :
    visible 0 (3/10) = false
    ∧ circleOp 4 (0, 255, 0) (3/10) ⟨0, 0, 0⟩ = none
    ∧ segOp (255, 0, 255) 2 (augmentKeypoints zeroPerson (3/10)) (3/10)
        (17, 0) = none := by
  have h := invalid_joint_never_drawn (3/10) (by norm_num)
  refine ⟨h.1, h.2.1 4 (0, 255, 0), ?_⟩
  have hget : (augmentKeypoints zeroPerson (3/10)).get? 17 =
      some ⟨0, 0, 0⟩ := by
    norm_num [augmentKeypoints, zeroPerson, neckOf, pelvisOf, visible,
      List.get?]
  exact (h.2.2 (255, 0, 255) 2 17 0 _ hget).1

/-- C8 counterexample: with gated endpoints at x = 17/10 and x = -17/10
the drawn segment runs from pixel x = 1 to pixel x = -1 (truncation
toward zero), while rounding to the nearest integer would give 2 and -2. -/
theorem segment_coords_rounding_counterexample :
    segOp (255, 0, 255) 2 [⟨17/10, 0, 1⟩, ⟨-17/10, 0, 1⟩] (3/10) (0, 1) =
      some (.line (1, 0) (-1, 0) (255, 0, 255) 2)
    ∧ round ((17 : ℚ)/10) = 2
    ∧ round ((-17 : ℚ)/10) = -2
    ∧ (1 : ℤ) ≠ round ((17 : ℚ)/10) := by
  have h1 : pyInt (17/10) = 1 := by
    simp only [pyInt]
    rw [if_neg (by norm_num)]
    norm_num
  have h2 : pyInt (-(17/10)) = -1 := by
    simp only [pyInt]
    rw [if_pos (by norm_num)]
    norm_num [Int.ceil_eq_iff]
  refine ⟨?_, by norm_num [round_eq], by norm_num [round_eq],
    by norm_num [round_eq]⟩
  have h0 : pyInt 0 = 0 := by
    simp [pyInt]
  norm_num [segOp, visible, List.get?, h1, h2, h0]

/-- C8 amended: the endpoint pixel coordinates of a drawn segment are the
(x, y) values of its joints truncated toward zero (floor for nonnegative
values, ceiling for negative ones; Python int()), not rounded to the
nearest integer. -/
theorem segment_coords_truncation (keypts : List Keypoint) (thr : ℚ)
    (a b : ℕ) (ka kb : Keypoint)
    (ha : keypts.get? a = some ka) (hb : keypts.get? b = some kb)
    (hga : ka.conf > thr) (hgb : kb.conf > thr) (col : Color) (w : ℕ) :
    segOp col w keypts thr (a, b) =
      some (.line (pyInt ka.x, pyInt ka.y) (pyInt kb.x, pyInt kb.y) col w)
    ∧ (∀ q : ℚ, 0 ≤ q → pyInt q = ⌊q⌋)
    ∧ (∀ q : ℚ, q < 0 → pyInt q = ⌈q⌉) := by
  refine ⟨?_, ?_, ?_⟩
  · rw [List.get?_eq_getElem?] at ha hb
    simp [segOp, ha, hb, visible, hga, hgb]
  · intro q hq
    simp only [pyInt]
    rw [if_neg (not_lt.mpr hq)]
  · intro q hq
    simp only [pyInt]
    rw [if_pos hq]

/-- Witness for C8 amended: a segment between (5/2, -5/2) and (7, 8) is
drawn from pixel (2, -2) to pixel (7, 8). -/
theorem segment_coords_truncation_witness :
    segOp (255, 0, 255) 2 [⟨5/2, -5/2, 1⟩, ⟨7, 8, 1⟩] (3/10) (0, 1) =
      some (.line (2, -2) (7, 8) (255, 0, 255) 2) := by
  have h := segment_coords_truncation [⟨5/2, -5/2, 1⟩, ⟨7, 8, 1⟩] (3/10) 0 1
    ⟨5/2, -5/2, 1⟩ ⟨7, 8, 1⟩ rfl rfl (by norm_num) (by norm_num)
    (255, 0, 255) 2
  rw [h.1]
  norm_num [pyInt, Int.ceil_eq_iff]

/-- Each per-person annotation emits exactly one classifier call. -/
theorem countP_classifyCall_annotatePerson (classify : Person → String)
    (thr : ℚ) (person : Person) :
    (annotatePerson classify thr person).countP isClassifyCall = 1 := by
  unfold annotatePerson
  cases h : person.get? 0
  · simp [isClassifyCall]
  · rw [List.countP_cons_of_pos _ _ (by simp [isClassifyCall])]
    split
    · simp [isClassifyCall]
    · simp

/-- C6: the classifier is invoked exactly once per person per frame
regardless of nose visibility, and the label is drawn as text at
(int(nose.x), int(nose.y) - 10) exactly when the nose (index 0) passes
the gate, with nothing drawn for that person otherwise. -/
theorem annotator_classify_always_text_gated :
    (∀ (classify : Person → String) (persons : List Person) (thr : ℚ),
      (persons.flatMap (annotatePerson classify thr)).countP isClassifyCall
        = persons.length)
    ∧ (∀ (classify : Person → String) (thr : ℚ) (person : Person)
        (nose : Keypoint), person.get? 0 = some nose →
        annotatePerson classify thr person =
          Event.classifyCall person ::
            (if nose.conf > thr then
              [Event.draw (.text (classify person)
                (pyInt nose.x, pyInt nose.y - 10) (0, 255, 255) 2)]
            else [])) := by
  constructor
  · intro classify persons thr
    induction persons with
    | nil => simp
    | cons p ps ih =>
      simp [List.countP_append, ih, countP_classifyCall_annotatePerson,
        Nat.add_comm]
  · intro classify thr person nose h
    rw [List.get?_eq_getElem?] at h
    by_cases hc : nose.conf > thr <;> simp [annotatePerson, h, visible, hc]

/-- Witness for C6: one test person yields one classifier call, and its
confident nose at (50, 40) puts the label text at (50, 30). -/
theorem annotator_classify_always_text_gated_witness :
    ([testPerson].flatMap
        (annotatePerson (fun _ => "walk") (3/10))).countP isClassifyCall = 1
    ∧ annotatePerson (fun _ => "walk") (3/10) testPerson =
        [Event.classifyCall testPerson,
         Event.draw (.text "walk" (50, 30) (0, 255, 255) 2)] := by
  constructor
  · have h := annotator_classify_always_text_gated.1 (fun _ => "walk")
      [testPerson] (3/10)
    simpa using h
  · have h := annotator_classify_always_text_gated.2 (fun _ => "walk")
      (3/10) testPerson ⟨50, 40, 9/10⟩ rfl
    rw [h, if_pos (by norm_num)]
    norm_num [pyInt]

/-- C7 counterexample: when the device fails to open, the source prints
the error and returns from the function: the release path is never
invoked (zero release and destroyWindows events) and the process exit
status is 0, not non-zero. -/
theorem open_failure_no_cleanup_counterexample :
    (real_time_pose_estimation (fun _ => "stand") (3/10) false []).1.count
        Event.release = 0
    ∧ (real_time_pose_estimation (fun _ => "stand") (3/10) false []).1.count
        Event.destroyWindows = 0
    ∧ (real_time_pose_estimation (fun _ => "stand") (3/10) false []).2 = 0 :=
  ⟨rfl, rfl, rfl⟩

/-- C7 amended: if the device fails to open, the failure is reported once
and the loop never starts (zero render and zero display events), but the
cleanup/release path is not invoked at all and the process exits with
status 0. -/
theorem open_failure_behavior :
    ∀ (classify : Person → String) (thr : ℚ)
      (schedule : List (Option (List Person) × Bool)),
      real_time_pose_estimation classify thr false schedule =
        ([Event.reportOpenFailure], 0)
      ∧ (real_time_pose_estimation classify thr false schedule).1.countP
          isDrawEvent = 0
      ∧ (real_time_pose_estimation classify thr false schedule).1.count
          Event.display = 0
      ∧ (real_time_pose_estimation classify thr false schedule).1.count
          Event.reportOpenFailure = 1
      ∧ (real_time_pose_estimation classify thr false schedule).1.count
          Event.release = 0 := by
  intro classify thr schedule
  exact ⟨rfl, rfl, rfl, rfl, rfl⟩

/-- A pair whose endpoints all come from an everywhere-gated-off keypoint
list yields no segment. -/
theorem segOp_none_of_invisible (col : Color) (w : ℕ)
    (keypts : List Keypoint) (thr : ℚ)
    (h : ∀ k ∈ keypts, visible k.conf thr = false) (p : ℕ × ℕ) :
    segOp col w keypts thr p = none := by
  unfold segOp
  cases ha : keypts.get? p.1 with
  | none => rfl
  | some ka =>
    cases hb : keypts.get? p.2 with
    | none => rfl
    | some kb =>
      show (if visible ka.conf thr = true ∧ visible kb.conf thr = true then
          some (DrawOp.line (pyInt ka.x, pyInt ka.y) (pyInt kb.x, pyInt kb.y)
            col w)
        else none) = none
      rw [if_neg]
      rintro ⟨hka, _⟩
      rw [h ka (List.get?_mem ha)] at hka
      exact Bool.false_ne_true hka

/-- A person whose keypoints (synthesized ones included) are all gated
off produces no extended-renderer operation at all. -/
theorem drawCustomPersonOps_eq_nil (person : Person) (thr : ℚ)
    (h : ∀ k ∈ person, visible k.conf thr = false)
    (hn : visible (neckOf person thr).conf thr = false)
    (hp : visible (pelvisOf person thr).conf thr = false) :
    drawCustomPersonOps person thr = [] := by
  have haug : ∀ k ∈ augmentKeypoints person thr,
      visible k.conf thr = false := by
    intro k hk
    rcases List.mem_append.1 hk with hk1 | hk2
    · exact h k hk1
    · simp only [List.mem_cons, List.not_mem_nil, or_false] at hk2
      rcases hk2 with rfl | rfl
      · exact hn
      · exact hp
  have h1 : (augmentKeypoints person thr).filterMap
      (circleOp 4 (0, 255, 0) thr) = [] :=
    List.filterMap_eq_nil_iff.2 (fun k hk => by simp [circleOp, haug k hk])
  have h2 : skeletonCustom.filterMap
      (segOp (255, 0, 255) 2 (augmentKeypoints person thr) thr) = [] :=
    List.filterMap_eq_nil_iff.2
      (fun p _ => segOp_none_of_invisible _ _ _ _ haug p)
  show (augmentKeypoints person thr).filterMap (circleOp 4 (0, 255, 0) thr)
      ++ skeletonCustom.filterMap
        (segOp (255, 0, 255) 2 (augmentKeypoints person thr) thr) = []
  rw [h1, h2]
  rfl

/-- C4 counterexample: with session threshold 1/2 and a person whose
keypoints all have confidence 2/5, the loop body differs from a uniformly
thresholded one: the renderer, invoked at its default 3/10, draws markers
that a session-threshold renderer would suppress. -/
theorem session_threshold_not_uniform_counterexample :
    processFrame (fun _ => "stand") [midConfPerson] (1/2) ≠
      processFrameUniform (fun _ => "stand") [midConfPerson] (1/2) := by
  have hc0 : circleOp 4 (0, 255, 0) (3/10) ⟨1, 1, 2/5⟩ =
      some (.circle (1, 1) 4 (0, 255, 0)) := by
    unfold circleOp
    rw [if_pos (by norm_num [visible])]
    norm_num [pyInt]
  have hL : (processFrame (fun _ => "stand") [midConfPerson] (1/2)).head? =
      some (Event.draw (.circle (1, 1) 4 (0, 255, 0))) := by
    simp only [processFrame, draw_custom_pose, drawCustomPersonOps,
      augmentKeypoints, midConfPerson, List.flatMap_cons, List.flatMap_nil,
      List.append_nil, List.nil_append, List.cons_append,
      List.filterMap_cons, hc0, List.map_cons, List.append_assoc,
      List.head?_cons]
  have hmem : ∀ k ∈ midConfPerson, visible k.conf (1/2) = false := by
    intro k hk
    have hk2 : k = ⟨1, 1, 2/5⟩ := by simpa [midConfPerson] using hk
    rw [hk2]
    norm_num [visible]
  have hneckU : neckOf midConfPerson (1/2) = ⟨0, 0, 0⟩ := by
    unfold neckOf midConfPerson
    norm_num [List.get?, visible]
  have hpelU : pelvisOf midConfPerson (1/2) = ⟨0, 0, 0⟩ := by
    unfold pelvisOf midConfPerson
    norm_num [List.get?, visible]
  have hdcpU : drawCustomPersonOps midConfPerson (1/2) = [] := by
    refine drawCustomPersonOps_eq_nil _ _ hmem ?_ ?_
    · rw [hneckU]
      norm_num [visible]
    · rw [hpelU]
      norm_num [visible]
  have hR : (processFrameUniform (fun _ => "stand") [midConfPerson]
      (1/2)).head? = some (Event.classifyCall midConfPerson) := by
    simp only [processFrameUniform, draw_custom_pose, List.flatMap_cons,
      List.flatMap_nil, List.append_nil, List.nil_append, hdcpU,
      List.map_nil, annotatePerson, List.cons_append, List.head?_cons]
  intro heq
  rw [heq, hR] at hL
  exact Event.noConfusion (Option.some.inj hL)

/-- C4 amended: the nose gate of the annotator uses the session threshold, but
the extended renderer is invoked with its default threshold 3/10, so the
loop body equals its uniformly thresholded version exactly when the
renderer output at the session threshold coincides with the output at
3/10 — in particular whenever the session threshold is 3/10. -/
theorem session_threshold_usage :
    ∀ (classify : Person → String) (persons : List Person) (thr : ℚ),
      (processFrame classify persons thr =
          processFrameUniform classify persons thr ↔
        draw_custom_pose [] persons (3/10) = draw_custom_pose [] persons thr)
      ∧ processFrame classify persons (3/10) =
          processFrameUniform classify persons (3/10) := by
  intro classify persons thr
  constructor
  · constructor
    · intro h
      have h2 : (draw_custom_pose [] persons (3/10)).map Event.draw =
          (draw_custom_pose [] persons thr).map Event.draw := by
        have h3 := h
        unfold processFrame processFrameUniform at h3
        exact List.append_cancel_right (List.append_cancel_right h3)
      exact List.map_injective_iff.2
        (fun a b hab => by injection hab) h2
    · intro h
      unfold processFrame processFrameUniform
      rw [h]
  · rfl
